import Mathlib

/-!
Shallow embedding of `tezerok/vector` (src/vector.h, src/uninitialized_memory.h).

A vector state is modelled by the capacity of its storage block
(`uninitialized_memory::_size`), the live count (`vector::_size`) and the
contents of memory.  Memory is modelled as a total map from slot indices to
`Option`: `some v` means the slot holds the value `v`, `none` means the slot is
uninitialized (its contents are indeterminate).  Indices at or beyond `cap` lie
outside the allocated block; the code can still write there (that is one of the
bugs analysed below), so the map is total.

The translation follows ISO C++17 evaluation rules, checked against GCC 12 with
-std=c++17: in `new (&storage[_size++]) T(std::move(back()))` the placement
argument (including the side effect on `_size`) is evaluated before the
new-initializer, so `back()` reads the already incremented `_size`; and in
libstdc++ `std::move(first, last, d)` on random-access iterators is a counted
loop (`for n = last - first; n > 0; --n`), so a range with `last - first < 0`
performs no assignments.
-/

namespace VecSpec

/-- State of a `vector<T>`: `cap` is `storage.size()` (the capacity of the
allocated block), `size` is `_size` (the live count), `mem i` is the contents
of slot `i` of memory starting at the block base (`none` = uninitialized). -/
structure Vec (α : Type) where
  cap : Nat
  size : Nat
  mem : Nat → Option α

/-- Write a single memory slot. -/
def writeMem {α : Type} (m : Nat → Option α) (i : Nat) (v : Option α) : Nat → Option α :=
  fun j => if j = i then v else m j

/-- `vector() noexcept : storage(0), _size(0)` (vector.h 24-27): a zero-byte
block, no live elements. -/
def emptyVec {α : Type} : Vec α :=
  { cap := 0, size := 0, mem := fun _ => none }

/-- `vector(std::initializer_list<T>)` (vector.h 56-61): capacity and size are
the list length, elements copied in order. -/
def fromList {α : Type} (l : List α) : Vec α :=
  { cap := l.length, size := l.length, mem := fun i => l[i]? }

/-- The live contents, in order: slots `[0, size)`. -/
def contents {α : Type} (s : Vec α) : List (Option α) :=
  (List.range s.size).map s.mem

/-- `vector::force_capacity` (vector.h 308-332), allocation assumed to
succeed: allocate a block of `newCap` slots, move/copy the `size` live
elements into its first `size` slots (the rest is fresh uninitialized memory),
swap the blocks.  Note the copy loop reads slots `[0, size)` of the old
memory whether or not they lie inside the old block. -/
def force_capacity {α : Type} (s : Vec α) (newCap : Nat) : Vec α :=
  { cap := newCap, size := s.size,
    mem := fun i => if i < s.size then s.mem i else none }

/-- `vector::reserve` (vector.h 285-291): no-op unless `newCap > capacity()`. -/
def reserve {α : Type} (s : Vec α) (newCap : Nat) : Vec α :=
  if newCap ≤ s.cap then s else force_capacity s newCap

/-- `vector::push_back` (vector.h 205-212): grow via `reserve(size()*2)` when
`size() >= capacity()`, then construct the new element at slot `_size` and
increment `_size`.  `vector::emplace_back` (214-221) is the same with the
element built from constructor arguments. -/
def push_back {α : Type} (s : Vec α) (v : α) : Vec α :=
  let s1 := if s.cap ≤ s.size then reserve s (s.size * 2) else s
  { s1 with size := s1.size + 1, mem := writeMem s1.mem s1.size (some v) }

/-- State after a `push_back`/`emplace_back` whose final in-place construction
throws (vector.h 211, 220): the placement argument `&storage[_size++]` is
evaluated before the constructor runs, so the increment of `_size` persists
when the constructor throws; no value is stored in the slot. -/
def push_back_ctorThrow {α : Type} (s : Vec α) : Vec α :=
  let s1 := if s.cap ≤ s.size then reserve s (s.size * 2) else s
  { s1 with size := s1.size + 1 }

/-- The rightward shift performed by the `std::move` call in
`vector::insert`/`emplace` (vector.h 231-235, 247-251), after `_size` has been
incremented to `n + 1`: with `first = rev(end()-2)`, `last = rev(it)`,
`dest = rev(end()-1)` the counted loop assigns `mem[k] := mem[k-1]` for
`k = n-1` down to `p+1` (no assignments when `p ≥ n-1`, since the count
`(n-1) - p` is then not positive).  The writes run right to left, so every
read sees an original value; the simultaneous map below is therefore exact. -/
def shiftRight {α : Type} (m : Nat → Option α) (p n : Nat) : Nat → Option α :=
  fun j => if p < j ∧ j < n then m (j - 1) else m j

/-- `vector::insert` (vector.h 223-237) and `vector::emplace` (239-253) at
slot index `p`, under ISO C++17 sequencing: after the growth check, the
statement `new (&storage[_size++]) T(std::move(back()))` increments `_size`
from `n` to `n+1` before `back()` is evaluated, so `back()` is
`storage[_size-1] = storage[n]` — the target slot itself; the new last slot is
move-constructed from its own (uninitialized) contents.  Then the shift, then
the new value is constructed at slot `p`. -/
def insertAt {α : Type} (s : Vec α) (p : Nat) (v : α) : Vec α :=
  let s1 := if s.cap ≤ s.size then reserve s (s.size * 2) else s
  let n := s1.size
  let m1 := writeMem s1.mem n (s1.mem n)
  let m2 := shiftRight m1 p n
  { s1 with size := n + 1, mem := writeMem m2 p (some v) }

/-- `vector::pop_back` (vector.h 255-259): destroy slot `_size - 1`,
decrement `_size`. -/
def pop_back {α : Type} (s : Vec α) : Vec α :=
  { s with size := s.size - 1, mem := writeMem s.mem (s.size - 1) none }

/-- `vector::erase` (vector.h 261-268) at slot index `p`:
`std::move(it+1, end(), it)` move-assigns `mem[k] := mem[k+1]` for
`k = p, …, size-2` (left to right, so every read sees an original value),
then slot `size-1` is destroyed and `_size` decremented. -/
def erase {α : Type} (s : Vec α) (p : Nat) : Vec α :=
  let n := s.size
  let m1 : Nat → Option α := fun j => if p ≤ j ∧ j + 1 < n then s.mem (j + 1) else s.mem j
  { s with size := n - 1, mem := writeMem m1 (n - 1) none }

/-- `vector::clear` (vector.h 293-298): destroy slots `[0, size)`, set
`_size` to 0. -/
def clear {α : Type} (s : Vec α) : Vec α :=
  { s with size := 0, mem := fun i => if i < s.size then none else s.mem i }

/-- `vector::shrink_to_fit` (vector.h 300-306): no-op when
`size() == capacity()`, otherwise `force_capacity(size())`. -/
def shrink_to_fit {α : Type} (s : Vec α) : Vec α :=
  if s.size = s.cap then s else force_capacity s s.size

/-- `vector::at` (vector.h 139-150): the code throws `std::out_of_range`
exactly when `index > size()` (note: not `>=`), otherwise it returns
`storage[index]`. -/
def atIdx {α : Type} (s : Vec α) (i : Nat) : Except String (Option α) :=
  if s.size < i then Except.error "out-of-range access detected (vector)"
  else Except.ok (s.mem i)

/-- `vector::operator[]` (vector.h 136-137): unchecked access to
`storage[index]`. -/
def getUnchecked {α : Type} (s : Vec α) (i : Nat) : Option α :=
  s.mem i

/-- `friend void swap(vector&, vector&)` (vector.h 95-100): exchanges the two
states (storage block and live count). -/
def swapVec {α : Type} (a b : Vec α) : Vec α × Vec α :=
  (b, a)

/-- `vector(vector&& x)` (vector.h 43-47): default-construct `*this` (a
zero-capacity state), then `swap(*this, x)`.  Returns
(the new vector, the source after the move). -/
def moveCtor {α : Type} (x : Vec α) : Vec α × Vec α :=
  swapVec emptyVec x

/-- `vector& operator=(vector&& x)` (vector.h 76-80): `swap(*this, x)`.
Returns (the assigned-to vector, the source after the move). -/
def moveAssign {α : Type} (a x : Vec α) : Vec α × Vec α :=
  swapVec a x

/-- `vector(const vector& x)` (vector.h 49-54): allocate exactly `x._size`
slots and copy the live elements; capacity of the copy is `x.size`, not
`x.cap`. -/
def copyCtor {α : Type} (x : Vec α) : Vec α :=
  { cap := x.size, size := x.size, mem := fun i => if i < x.size then x.mem i else none }

/-- `vector& operator=(vector x)` (vector.h 82-86), copy-and-swap: the
by-value parameter is copy-constructed from the argument at the call site
(`copyOk = false` models that copy throwing, in which case neither vector has
been touched), then `swap(*this, x)`; the parameter is destroyed on return.
Returns (the assigned-to vector, the argument) in both outcomes. -/
def copyAssign {α : Type} (a b : Vec α) (copyOk : Bool) :
    Except (Vec α × Vec α) (Vec α × Vec α) :=
  if copyOk then
    let x := copyCtor b
    let p := swapVec a x
    Except.ok (p.1, b)
  else Except.error (a, b)

/-- `operator==(const vector&, const vector&)` (vector.h 336-344): sizes
equal and `std::equal` over the live ranges. -/
def vecEq {α : Type} [DecidableEq α] (a b : Vec α) : Bool :=
  decide (a.size = b.size) &&
    (List.range a.size).all fun i => decide (a.mem i = b.mem i)

/-- `vector::force_capacity` with its allocation step made explicit
(vector.h 313-314, uninitialized_memory.h 13-21): the very first action is
`uninitialized_memory<T> newStorage(newCapacity)`; if that allocation throws
(the oracle `alloc` answers `false` for the requested capacity), the function
exits before any member of the vector has been read or written, so the state
carried by the error is exactly the input state. -/
def force_capacityA {α : Type} (alloc : Nat → Bool) (s : Vec α) (newCap : Nat) :
    Except (Vec α) (Vec α) :=
  if alloc newCap then Except.ok (force_capacity s newCap)
  else Except.error s

/-- `vector::reserve` routed through the allocation-aware
`force_capacityA`. -/
def reserveA {α : Type} (alloc : Nat → Bool) (s : Vec α) (newCap : Nat) :
    Except (Vec α) (Vec α) :=
  if newCap ≤ s.cap then Except.ok s else force_capacityA alloc s newCap

/-- `uninitialized_memory<T>` observable state: whether `mem` is null, and
`_size` (the block size in elements). -/
structure UMem where
  isNull : Bool
  msize : Nat
deriving DecidableEq

/-- `uninitialized_memory(uninitialized_memory&& x)`
(uninitialized_memory.h 55-62): steal the pointer and size, null the
source.  Returns (the new owner, the source after the move). -/
def umemMoveCtor (x : UMem) : UMem × UMem :=
  (x, { isNull := true, msize := 0 })

/-- `uninitialized_memory& operator=(uninitialized_memory&& x)`
(uninitialized_memory.h 64-69): `swap(*this, x)`.  Returns
(the assigned-to owner, the source after the move). -/
def umemMoveAssign (a x : UMem) : UMem × UMem :=
  (x, a)

/-- States reachable from a default-constructed `vector` by sequences of
public operations (those with preconditions are only applied when the
precondition holds, so no state below arises from a misuse). -/
inductive Reachable {α : Type} : Vec α → Prop where
  | empty : Reachable emptyVec
  | push (s : Vec α) (v : α) : Reachable s → Reachable (push_back s v)
  | pop (s : Vec α) : Reachable s → 0 < s.size → Reachable (pop_back s)
  | ins (s : Vec α) (p : Nat) (v : α) : Reachable s → p ≤ s.size → Reachable (insertAt s p v)
  | ers (s : Vec α) (p : Nat) : Reachable s → p < s.size → Reachable (erase s p)
  | res (s : Vec α) (n : Nat) : Reachable s → Reachable (reserve s n)
  | shrink (s : Vec α) : Reachable s → Reachable (shrink_to_fit s)
  | clr (s : Vec α) : Reachable s → Reachable (clear s)

end VecSpec

namespace VecSpec

/-! ## Shared lemmas -/

lemma reserve_cap_of_lt {α : Type} (s : Vec α) (n : Nat) (h : s.cap < n) :
    (reserve s n).cap = n := by
  unfold reserve
  rw [if_neg (Nat.not_le.mpr h)]
  rfl

lemma contents_force_capacity {α : Type} (s : Vec α) (n : Nat) :
    contents (force_capacity s n) = contents s := by
  unfold contents force_capacity
  refine List.map_congr_left ?_
  intro i hi
  rw [List.mem_range] at hi
  simp [hi]

end VecSpec

namespace VecSpec

/-! ## Claims -/

/-- C1: The spec claims that an implicit-growth operation at `size == capacity`
sets the new capacity to `max(1, 2 * size)`, in particular that a `push_back`
on an empty vector with capacity 0 yields capacity 1.  Evaluating the embedded
`push_back` on the default-constructed vector shows the code instead calls
`reserve(0)`, a no-op, and leaves the capacity at 0 while the size becomes 1
(the element is constructed outside the zero-byte block). -/
theorem c1_push_back_empty_leaves_capacity_zero :
    (push_back (emptyVec : Vec Nat) 42).cap = 0 ∧
    (push_back (emptyVec : Vec Nat) 42).size = 1 ∧
    (push_back (emptyVec : Vec Nat) 42).mem 0 = some 42 :=
  ⟨rfl, rfl, rfl⟩

/-- C2: The spec claims `0 ≤ size ≤ capacity` in every state reachable by
public operations, with exactly the slots `[0, size)` live.  A single
`push_back` on the default-constructed vector reaches a state with
`capacity = 0 < 1 = size`, whose one live element moreover sits at index
`capacity`, outside the allocated block. -/
theorem c2_reachable_state_violates_invariant :
    ∃ s : Vec Nat, Reachable s ∧ s.cap < s.size ∧ s.mem s.cap ≠ none :=
  ⟨push_back emptyVec 7, Reachable.push _ 7 Reachable.empty, by decide, by decide⟩

/-- Pre-state for C3: one live element, spare capacity, so the failing
`push_back` reaches the final in-place construction without reallocating. -/
def c3pre : Vec Nat :=
  { cap := 2, size := 1, mem := fun i => [5][i]? }

/-- C3: The spec claims a failed `emplace_back`/`push_back` (element
copy constructor throws) leaves size and contents exactly as before the call.
When the throwing construction is the final in-place one, `_size` was already
incremented by the placement argument and is not rolled back: from a vector of
size 1 the failed call leaves size 2, with slot 1 holding no constructed
element. -/
theorem c3_throwing_push_back_changes_size :
    c3pre.size = 1 ∧
    (push_back_ctorThrow c3pre).size = 2 ∧
    (push_back_ctorThrow c3pre).mem 1 = none ∧
    contents (push_back_ctorThrow c3pre) ≠ contents c3pre := by
  refine ⟨rfl, rfl, rfl, ?_⟩
  decide

/-- C4: The spec claims `at(i)` fails with an out-of-range error exactly when
`i ≥ size`.  The code compares `index > size()`, so on a vector of size 1 the
call `at(1)` does not fail — it returns the (dead) slot 1 — while `at(2)`
does fail. -/
theorem c4_at_off_by_one :
    (fromList ([7] : List Nat)).size = 1 ∧
    atIdx (fromList ([7] : List Nat)) 1 = Except.ok none ∧
    atIdx (fromList ([7] : List Nat)) 2 =
      Except.error "out-of-range access detected (vector)" :=
  ⟨rfl, rfl, rfl⟩

/-- Pre-state for C5: contents `[10, 20]` with spare capacity, so `insert`
does not reallocate. -/
def c5v : Vec Nat :=
  { cap := 3, size := 2, mem := fun i => [10, 20][i]? }

/-- C5: The spec claims `insert(pos, v)` first move-constructs a new last
element from the current last live element and yields
`[a0, …, a(pos-1), v, a(pos), …, a(n-1)]`.  Under C++17 sequencing the
placement argument has already incremented `_size`, so `back()` designates the
new (uninitialized) slot: inserting 99 at position 0 of `[10, 20]` yields
`[99, 10, ⊥]` — the old last element 20 is lost and the final slot holds no
constructed value — instead of `[99, 10, 20]`. -/
theorem c5_insert_loses_last_element :
    (insertAt c5v 0 99).size = 3 ∧
    contents (insertAt c5v 0 99) = [some 99, some 10, none] := by
  refine ⟨rfl, ?_⟩
  decide

/-- C6: if the allocation of the new block at the start of a capacity change
fails, the vector is left completely unchanged — the allocation is the first
action of `force_capacity`, before any element or member is touched, so the
state carried out of the failing call is exactly the input state.  Holds both
for `force_capacity` itself and for a growing `reserve`. -/
theorem c6_alloc_failure_leaves_vector_unchanged {α : Type} (alloc : Nat → Bool)
    (s : Vec α) (newCap : Nat) (h1 : alloc newCap = false) (h2 : s.cap < newCap) :
    force_capacityA alloc s newCap = Except.error s ∧
    reserveA alloc s newCap = Except.error s := by
  have hfc : force_capacityA alloc s newCap = Except.error s := by
    unfold force_capacityA
    rw [h1]
    rfl
  refine ⟨hfc, ?_⟩
  unfold reserveA
  rw [if_neg (Nat.not_le.mpr h2)]
  exact hfc

/-- Witness for C6 at a concrete input: a vector of two elements, a request
for capacity 5, and an allocator that refuses every request. -/
theorem c6_alloc_failure_witness :
    force_capacityA (fun _ => false) (fromList ([1, 2] : List Nat)) 5 =
      Except.error (fromList [1, 2]) ∧
    reserveA (fun _ => false) (fromList ([1, 2] : List Nat)) 5 =
      Except.error (fromList [1, 2]) :=
  c6_alloc_failure_leaves_vector_unchanged (fun _ => false) (fromList [1, 2]) 5
    rfl (by decide)

/-- C7: `erase(pos)` move-assigns the subrange `(pos, n)` one slot left into
`[pos, n-1)`, destroys the vacated slot `n-1` and decrements the size: the
result has size `n - 1`, unchanged capacity, and contents
`[a0, …, a(pos-1), a(pos+1), …, a(n-1)]`. -/
theorem c7_erase_shifts_left {α : Type} (s : Vec α) (p : Nat) (h : p < s.size) :
    (erase s p).size = s.size - 1 ∧
    (erase s p).cap = s.cap ∧
    contents (erase s p) =
      (contents s).take p ++ (contents s).drop (p + 1) := by
  refine ⟨rfl, rfl, ?_⟩
  have hlen : (contents s).length = s.size := by
    simp [contents]
  have hlen2 : (contents (erase s p)).length = s.size - 1 := by
    simp [contents, erase]
  have htk : (List.take p (contents s)).length = p := by
    rw [List.length_take, hlen]
    omega
  apply List.ext_getElem
  · rw [hlen2, List.length_append, htk, List.length_drop, hlen]
    omega
  · intro i h1 h2
    have hi : i < s.size - 1 := by
      rw [hlen2] at h1
      exact h1
    have hip : i + 1 < s.size := by omega
    have hL : (contents (erase s p))[i] =
        (if p ≤ i ∧ i + 1 < s.size then s.mem (i + 1) else s.mem i) := by
      have hne : ¬ i = s.size - 1 := by omega
      simp only [contents, erase, writeMem, List.getElem_map, List.getElem_range]
      rw [if_neg hne]
    rw [hL]
    by_cases hpi : i < p
    · have hip2 : ¬ (p ≤ i ∧ i + 1 < s.size) := by omega
      rw [if_neg hip2]
      rw [List.getElem_append_left (by rw [htk]; exact hpi)]
      rw [List.getElem_take]
      simp only [contents, List.getElem_map, List.getElem_range]
    · have hple : p ≤ i := Nat.le_of_not_lt hpi
      rw [if_pos ⟨hple, hip⟩]
      have hlt : (List.take p (contents s)).length ≤ i := by
        rw [htk]
        exact hple
      rw [List.getElem_append_right hlt]
      rw [List.getElem_drop]
      simp only [contents, List.getElem_map, List.getElem_range]
      congr 1
      rw [List.length_take, List.length_map, List.length_range]
      have hmin : p ⊓ s.size = p := inf_eq_left.mpr (Nat.le_of_lt h)
      rw [hmin]
      omega

/-- Witness for C7 at a concrete input: erasing position 1 of `[1, 2, 3]`. -/
theorem c7_erase_witness :
    (erase (fromList ([1, 2, 3] : List Nat)) 1).size =
      (fromList ([1, 2, 3] : List Nat)).size - 1 ∧
    (erase (fromList ([1, 2, 3] : List Nat)) 1).cap =
      (fromList ([1, 2, 3] : List Nat)).cap ∧
    contents (erase (fromList ([1, 2, 3] : List Nat)) 1) =
      (contents (fromList ([1, 2, 3] : List Nat))).take 1 ++
        (contents (fromList ([1, 2, 3] : List Nat))).drop 2 :=
  c7_erase_shifts_left (fromList [1, 2, 3]) 1 (by decide)

/-- C8, counterexample: the spec claims every move, including move
assignment, leaves the source empty (size 0).  Move assignment is implemented
as a swap, so after `a = move(b)` with `a = [1]`, `b = [2]`, the source `b`
holds `a`'s former single element: its size is 1, not 0. -/
theorem c8_move_assign_source_not_empty :
    (moveAssign (fromList ([1] : List Nat)) (fromList [2])).2.size ≠ 0 := by
  decide

/-- C8, amended: move construction (of the vector, and of the raw storage
owner) transfers the state to the destination and leaves the source empty —
size 0 and capacity 0 for the vector, a null block of size 0 for the storage
owner — while move assignment (of either) is a swap: the destination receives
the source's state and the source receives the destination's former state. -/
theorem c8_move_transfer {α : Type} (a x : Vec α) (u v : UMem) :
    moveCtor x = (x, emptyVec) ∧
    (moveCtor x).2.size = 0 ∧
    (moveCtor x).2.cap = 0 ∧
    moveAssign a x = (x, a) ∧
    umemMoveCtor u = (u, { isNull := true, msize := 0 }) ∧
    umemMoveAssign v u = (u, v) :=
  ⟨rfl, rfl, rfl, rfl, rfl, rfl⟩

/-- C9: after `shrink_to_fit()` the capacity equals the size and the live
contents are preserved in order, and a second `shrink_to_fit()` returns the
state unchanged (idempotence). -/
theorem c9_shrink_to_fit_exact_and_idempotent {α : Type} (s : Vec α) :
    (shrink_to_fit s).cap = s.size ∧
    (shrink_to_fit s).size = s.size ∧
    contents (shrink_to_fit s) = contents s ∧
    shrink_to_fit (shrink_to_fit s) = shrink_to_fit s := by
  have key : ∀ t : Vec α, t.size = t.cap → shrink_to_fit t = t := by
    intro t ht
    unfold shrink_to_fit
    rw [if_pos ht]
  by_cases h : s.size = s.cap
  · rw [key s h]
    exact ⟨h.symm, rfl, rfl, key s h⟩
  · have h2 : shrink_to_fit s = force_capacity s s.size := by
      unfold shrink_to_fit
      rw [if_neg h]
    rw [h2]
    exact ⟨rfl, rfl, contents_force_capacity s s.size, key _ rfl⟩

/-- C10: copy assignment is copy-and-swap, hence the strong guarantee: if the
copy of `b` (the by-value parameter) fails, both vectors are exactly as
before; if it succeeds, the target compares equal to `b` under the embedded
`operator==` and `b` is unchanged. -/
theorem c10_copy_assign_strong_guarantee {α : Type} [DecidableEq α] (a b : Vec α) :
    copyAssign a b false = Except.error (a, b) ∧
    copyAssign a b true = Except.ok (copyCtor b, b) ∧
    vecEq (copyCtor b) b = true := by
  refine ⟨rfl, rfl, ?_⟩
  unfold vecEq copyCtor
  rw [Bool.and_eq_true]
  constructor
  · simp
  · rw [List.all_eq_true]
    intro i hi
    rw [List.mem_range] at hi
    simp [hi]

end VecSpec
